import Mathlib

/-!
Verification of the GRPO training pilot (`src/pilot/train.py`).

The file gives a shallow embedding of the optimization loop of
`train_grpo_llama` and of its supporting pure functions, and proves or
refutes the specification's claims about them.  Tensors of scalars are
modelled as lists of rationals, datasets as lists over an abstract record
type, and model weights as an abstract type threaded through the loop.
The functions `GroupBuffer.calculate_relative_advantage`, `GroupBuffer.add`
and `calculate_kl_divergence` live in the `network` module, which is not
part of the provided sources; they are modelled from the specification and
marked as such in their doc comments.
-/

namespace GRPO

/-- Arithmetic mean of a list of rationals, as `np.mean`: sum divided by
length.  (For the empty list `np.mean` yields NaN; here rational division
by zero yields `0`.  No claim below depends on the empty case.) -/
def meanQ (l : List ℚ) : ℚ := l.sum / l.length

/-! ### Dataset splitting (`load_and_split_dataset`, train.py lines 16-26)

`datasets.Dataset.train_test_split(test_size=f)` shuffles and splits a
dataset of `n` records into a train part and a test part whose test part
holds `⌊f·n⌋` records.  Shuffling permutes records but does not change the
sizes of the two parts nor which *piece* of the split each later line of
`load_and_split_dataset` consumes, which is all the claim about the split
is concerned with; the model therefore splits the list in order. -/

/-- Split a list into `(train, test)` where the test part has
`⌊testSize · n⌋` elements, modelling `Dataset.train_test_split`. -/
def train_test_split (l : List α) (testSize : ℚ) : List α × List α :=
  let nTest : Nat := ⌊testSize * (l.length : ℚ)⌋₊
  (l.take (l.length - nTest), l.drop (l.length - nTest))

/-- Embedding of `load_and_split_dataset` (train.py lines 16-26): the data
is split with `test_size=0.2`; the *test* piece of that split (`data["test"]`,
the 20% part) is split again with `test_size=0.125`; `train_data` and
`val_data` are the train/test pieces of that second split and `test_data`
is the whole 20% piece.  Returns `(train_data, val_data, test_data)`. -/
def load_and_split_dataset (data : List α) : List α × List α × List α :=
  let s1 := train_test_split data (1/5)
  let s2 := train_test_split s1.2 (1/8)
  (s2.1, s2.2, s1.2)

/-! ### Group buffer and group-relative advantage (spec-modelled) -/

/-- Division-by-zero guard used by the advantage normalizer. -/
def advEps : ℚ := 1 / 100000000

/-- Modelled from the spec: `GroupBuffer.calculate_relative_advantage` is
defined in the `network` module, which is absent from the sources.  The
spec requires normalizing each return against the group's central tendency
and spread with a division-by-zero guard, leaving the exact formula open
(mean-subtraction alone or additionally scaled by spread).  Chosen model:
`(r - mean) / (variance + advEps)`, mean-subtraction scaled by a guarded
spread term. -/
def calculate_relative_advantage (returns : List ℚ) : List ℚ :=
  let m := meanQ returns
  let v := meanQ (returns.map (fun r => (r - m) ^ 2))
  returns.map (fun r => (r - m) / (v + advEps))

/-- A stored policy snapshot: adapter weights plus the scalar group-average
return that produced them. -/
structure PolicySnapshot (W : Type) where
  weights : W
  score : ℚ
deriving DecidableEq, Repr

/-- Modelled from the spec: `GroupBuffer.add` is defined in the `network`
module, which is absent from the sources.  The spec requires recording a
snapshot while enforcing the bounded-size invariant, leaving the eviction
policy open (best-K or FIFO); FIFO eviction of the oldest snapshot is the
chosen model.  The buffer is the list of held snapshots, oldest first. -/
def GroupBuffer.add (maxSize : Nat) (buf : List (PolicySnapshot W))
    (x : PolicySnapshot W) : List (PolicySnapshot W) :=
  let b := buf ++ [x]
  b.drop (b.length - maxSize)

/-- The buffer contents after a sequence of `add` calls starting from the
empty buffer. -/
def GroupBuffer.addAll (maxSize : Nat) (xs : List (PolicySnapshot W)) :
    List (PolicySnapshot W) :=
  xs.foldl (GroupBuffer.add maxSize) []

/-! ### Trainer loop (`train_grpo_llama`, train.py lines 57-155)

Shallow embedding of the epoch loop.  `W` is the abstract type of model
weights / adapter state dicts, `D` the type of dataset records.  The
stochastic pieces (text generation and its reward) are abstracted into a
deterministic oracle `reward : D → ℚ` giving the observed reward of a
record's rollout, and the optimizer into `optStep : W → ℚ → W` applying
one gradient step for a rollout with the given advantage.  `snapshot`
models `get_peft_model_state_dict`.  `load_state_dict` on the reference
model is modelled as replacing the reference weights wholesale. -/

/-- Observable events of one epoch, in program order. -/
inductive Event
  | collect
  | advCall
  | zeroGrad
  | backward
  | optStep
  | bufferAdd
deriving DecidableEq, Repr

/-- Draw exactly `n` items from the front of the iterator `l`, as `n`
successive `next()` calls; `none` models `StopIteration` being raised
before `n` items were produced. -/
def takeExact (n : Nat) (l : List α) : Option (List α × List α) :=
  if n ≤ l.length then some (l.take n, l.drop n) else none

/-- One batch draw of the COLLECT phase (train.py lines 95-99): draw
`bs` items from the current iterator; on `StopIteration`, restart the
iterator from the full dataset and draw `bs` items again, an exception
from the retry propagating.  Returns the batch, the remaining iterator,
and whether a restart happened. -/
def drawBatch (train it : List D) (bs : Nat) :
    Except Unit (List D × List D × Bool) :=
  match takeExact bs it with
  | some (b, rest) => .ok (b, rest, false)
  | none =>
    match takeExact bs train with
    | some (b, rest) => .ok (b, rest, true)
    | none => .error ()

/-- Result of the COLLECT phase: the recorded rollout tuples (their input
batches), the per-step mean returns (`group_returns`), the remaining
iterator and the number of iterator restarts. -/
structure CollectOut (D : Type) where
  rollouts : List (List D)
  groupReturns : List ℚ
  iterRem : List D
  restarts : Nat
deriving DecidableEq, Repr

/-- The COLLECT phase (train.py lines 94-126): `n` iterations, each
drawing a batch, scoring it with the reward oracle and recording the
rollout tuple and the batch's mean return. -/
def collectSteps (reward : D → ℚ) (train : List D) (bs : Nat) :
    Nat → List D → Except Unit (CollectOut D)
  | 0, it => .ok ⟨[], [], it, 0⟩
  | n + 1, it =>
    match drawBatch train it bs with
    | .error e => .error e
    | .ok (batch, rest, restarted) =>
      match collectSteps reward train bs n rest with
      | .error e => .error e
      | .ok co =>
        .ok ⟨batch :: co.rollouts, meanQ (batch.map reward) :: co.groupReturns,
             co.iterRem, (if restarted then 1 else 0) + co.restarts⟩

/-- The UPDATE phase (train.py lines 130-146): one optimizer step per
recorded rollout, taking `advantages[i]` for the `i`-th rollout in order
(an out-of-range index, as Python would raise, is an error).  Each step
emits `zeroGrad`, `backward`, `optStep` in program order. -/
def updatePhase (optStep : W → ℚ → W) :
    List (List D) → List ℚ → W → Except Unit (W × List Event)
  | [], _, w => .ok (w, [])
  | _ :: _, [], _ => .error ()
  | _ :: rs, a :: advTail, w =>
    match updatePhase optStep rs advTail (optStep w a) with
    | .error e => .error e
    | .ok (w2, evs) =>
      .ok (w2, Event.zeroGrad :: Event.backward :: Event.optStep :: evs)

/-- Mutable state of `train_grpo_llama` threaded across epochs: the
policy weights, the stored reference snapshot `ref_sd`, the dataset
iterator position and the group buffer. -/
structure TState (W D : Type) where
  policy : W
  ref_sd : W
  iterRem : List D
  buffer : List (PolicySnapshot W)
deriving DecidableEq, Repr

/-- Everything one epoch produced: the new state, the weights that were
loaded into the reference model at the start of the epoch, the group
returns, the event trace and the restart count. -/
structure EpochOut (W D : Type) where
  state : TState W D
  refUsed : W
  rollouts : List (List D)
  groupReturns : List ℚ
  events : List Event
  restarts : Nat
deriving DecidableEq, Repr

/-- One iteration of the epoch loop (train.py lines 88-150):
`reference_model.load_state_dict(ref_sd)` fixes the reference weights
for the whole epoch before any rollout; COLLECT; one
`calculate_relative_advantage` call; UPDATE; one buffer `add`; and
`ref_sd` is replaced by the current policy's snapshot iff the mean group
return is strictly positive. -/
def runEpoch (reward : D → ℚ) (optStep : W → ℚ → W) (snapshot : W → W)
    (train : List D) (sg bs maxSize : Nat) (st : TState W D) :
    Except Unit (EpochOut W D) :=
  match collectSteps reward train bs sg st.iterRem with
  | .error e => .error e
  | .ok co =>
    let advantages := calculate_relative_advantage co.groupReturns
    match updatePhase optStep co.rollouts advantages st.policy with
    | .error e => .error e
    | .ok (policy2, uev) =>
      let group_avg := meanQ co.groupReturns
      let buffer2 := GroupBuffer.add maxSize st.buffer ⟨snapshot policy2, group_avg⟩
      let ref2 := if 0 < group_avg then snapshot policy2 else st.ref_sd
      .ok ⟨⟨policy2, ref2, co.iterRem, buffer2⟩, st.ref_sd, co.rollouts,
           co.groupReturns,
           co.groupReturns.map (fun _ => Event.collect) ++ [Event.advCall]
             ++ uev ++ [Event.bufferAdd],
           co.restarts⟩

/-- The state before the first epoch (train.py lines 78-86): `ref_sd` is
initialized to the current policy's snapshot, the iterator starts at the
beginning of the training data and the buffer is empty. -/
def initState (snapshot : W → W) (policy0 : W) (train : List D) : TState W D :=
  ⟨policy0, snapshot policy0, train, []⟩

/-- The epoch loop run `n` times. -/
def runEpochs (reward : D → ℚ) (optStep : W → ℚ → W) (snapshot : W → W)
    (train : List D) (sg bs maxSize : Nat) :
    Nat → TState W D → Except Unit (TState W D)
  | 0, st => .ok st
  | n + 1, st =>
    match runEpoch reward optStep snapshot train sg bs maxSize st with
    | .error e => .error e
    | .ok o => runEpochs reward optStep snapshot train sg bs maxSize n o.state

/-- Hyperparameters hard-coded in `train_grpo_llama` (train.py lines 81-86). -/
def epsilon : ℚ := 1 / 5

/-- KL coefficient `beta = 0.02`. -/
def beta : ℚ := 1 / 50

/-- `steps_per_group = 4`. -/
def steps_per_group : Nat := 4

/-- `batch_size = 1`. -/
def batch_size : Nat := 1

/-- `GroupBuffer(max_size=5)`. -/
def max_size : Nat := 5

/-- `epochs = 3`. -/
def epochs : Nat := 3

/-- The whole training loop of `train_grpo_llama` at the source's
hyperparameters, abstracted over the model/reward oracles. -/
def train_grpo_llama (reward : D → ℚ) (optStep : W → ℚ → W)
    (snapshot : W → W) (train : List D) (policy0 : W) :
    Except Unit (TState W D) :=
  runEpochs reward optStep snapshot train steps_per_group batch_size max_size
    epochs (initState snapshot policy0 train)

/-! ### The clipped-surrogate policy loss (train.py lines 135-137) -/

/-- `torch.clamp(x, lo, hi) = min(max(x, lo), hi)`. -/
def clampQ (x lo hi : ℚ) : ℚ := min (max x lo) hi

/-- `surr1 = ratio * advantage`, elementwise (train.py line 135). -/
def surr1 (ratio advantage : List ℚ) : List ℚ :=
  List.zipWith (fun r a => r * a) ratio advantage

/-- `surr2 = torch.clamp(ratio, 1 - epsilon, 1 + epsilon) * advantage`
(train.py line 136). -/
def surr2 (eps : ℚ) (ratio advantage : List ℚ) : List ℚ :=
  List.zipWith (fun r a => clampQ r (1 - eps) (1 + eps) * a) ratio advantage

/-- `policy_loss = -torch.min(surr1, surr2).mean()` (train.py line 137),
with `torch.min` taken elementwise. -/
def policy_loss (eps : ℚ) (ratio advantage : List ℚ) : ℚ :=
  -meanQ (List.zipWith min (surr1 ratio advantage) (surr2 eps ratio advantage))

/-! ### Gradient flow through the KL term (train.py lines 139-143)

A forward-mode autodiff model: a tracked scalar is its value together
with its gradient with respect to the `n` trainable parameters.
`Dual.detach` models `Tensor.detach()`; values captured under
`torch.no_grad()` are constants.  `calculate_kl_divergence` is defined in
the absent `network` module; it is modelled from the spec as an arbitrary
composition of differentiable primitives applied to its two tensor
arguments (covering any KL formula, its `.mean()` included). -/

/-- A scalar tracked by autodiff: value plus gradient with respect to the
`n` trainable parameters. -/
structure Dual (n : Nat) where
  val : ℚ
  grad : Fin n → ℚ

/-- A constant scalar: no parameter dependence, zero gradient. -/
def Dual.const (n : Nat) (c : ℚ) : Dual n := ⟨c, fun _ => 0⟩

/-- `Tensor.detach()`: same value, severed from the graph. -/
def Dual.detach (x : Dual n) : Dual n := ⟨x.val, fun _ => 0⟩

/-- Addition of tracked scalars. -/
def Dual.add (x y : Dual n) : Dual n :=
  ⟨x.val + y.val, fun i => x.grad i + y.grad i⟩

/-- Multiplication of tracked scalars (product rule). -/
def Dual.mul (x y : Dual n) : Dual n :=
  ⟨x.val * y.val, fun i => x.val * y.grad i + y.val * x.grad i⟩

/-- Modelled from the spec: differentiable computations over scalar
inputs indexed by `ι`.  `op1` is any unary primitive given with its
derivative, `op2` any binary primitive with both partials; compositions
of torch's differentiable ops (exp, log, softmax entries, means, clamps
with their subgradients, ...) are expressions of this shape. -/
inductive Expr (ι : Type)
  | const (c : ℚ)
  | input (i : ι)
  | op1 (f fd : ℚ → ℚ) (e : Expr ι)
  | op2 (f fx fy : ℚ → ℚ → ℚ) (e1 e2 : Expr ι)

/-- Forward-mode evaluation of an expression on tracked inputs, with the
chain rule at every node. -/
def Expr.eval (env : ι → Dual n) : Expr ι → Dual n
  | .const c => Dual.const n c
  | .input i => env i
  | .op1 fv fd e =>
    let x := e.eval env
    ⟨fv x.val, fun i => fd x.val * x.grad i⟩
  | .op2 fv fx fy e1 e2 =>
    let x := e1.eval env
    let y := e2.eval env
    ⟨fv x.val y.val, fun i => fx x.val y.val * x.grad i + fy x.val y.val * y.grad i⟩

/-- The two tensor arguments of `calculate_kl_divergence` as seen at
train.py line 139: the current-policy logits *detached*
(`logits.detach()`), and the reference logits, which were captured under
`torch.no_grad()` during COLLECT and are therefore constants. -/
def klInputs (logitsD : Fin k → Dual n) (refLogits : Fin k → ℚ) :
    Fin k ⊕ Fin k → Dual n
  | .inl i => (logitsD i).detach
  | .inr i => Dual.const n (refLogits i)

/-- The tracked total loss of one update step (train.py lines 139-141):
`loss = policy_loss + beta * calculate_kl_divergence(logits.detach(),
ref_logits).mean()`, the KL term being an arbitrary differentiable
expression `klE` of its detached/constant inputs. -/
def totalLoss (b : ℚ) (policyLossD : Dual n) (klE : Expr (Fin k ⊕ Fin k))
    (logitsD : Fin k → Dual n) (refLogits : Fin k → ℚ) : Dual n :=
  policyLossD.add ((Dual.const n b).mul (klE.eval (klInputs logitsD refLogits)))

lemma eval_grad_zero (env : ι → Dual n)
    (h : ∀ i, (env i).grad = fun _ => 0) :
    ∀ e : Expr ι, ((Expr.eval env e).grad : Fin n → ℚ) = fun _ => 0 := by
  intro e
  induction e with
  | const c => rfl
  | input i => exact h i
  | op1 fv fd e ih =>
    funext j
    simp [Expr.eval, ih]
  | op2 fv fx fy e1 e2 ih1 ih2 =>
    funext j
    simp [Expr.eval, ih1, ih2]

lemma klInputs_grad_zero (logitsD : Fin k → Dual n) (refLogits : Fin k → ℚ) :
    ∀ i, ((klInputs logitsD refLogits i).grad : Fin n → ℚ) = fun _ => 0 := by
  intro i
  cases i <;> rfl

lemma calculate_relative_advantage_length (returns : List ℚ) :
    (calculate_relative_advantage returns).length = returns.length := by
  simp [calculate_relative_advantage]

lemma variance_nonneg (returns : List ℚ) :
    0 ≤ meanQ (returns.map (fun r => (r - meanQ returns) ^ 2)) := by
  unfold meanQ
  apply div_nonneg
  · apply List.sum_nonneg
    intro x hx
    obtain ⟨r, _, rfl⟩ := List.mem_map.1 hx
    positivity
  · positivity

lemma advDenom_pos (returns : List ℚ) :
    0 < meanQ (returns.map (fun r => (r - meanQ returns) ^ 2)) + advEps := by
  have h := variance_nonneg returns
  have : (0 : ℚ) < advEps := by norm_num [advEps]
  linarith

lemma meanQ_single (x : ℚ) : meanQ [x] = x := by
  simp [meanQ]

lemma meanQ_const (returns : List ℚ) (c : ℚ) (hne : returns ≠ [])
    (h : ∀ r ∈ returns, r = c) : meanQ returns = c := by
  have hsum : ∀ l : List ℚ, (∀ r ∈ l, r = c) → l.sum = c * l.length := by
    intro l
    induction l with
    | nil => intro _; simp
    | cons a t ih =>
      intro hl
      have ha := hl a (by simp)
      have iht := ih (fun r hr => hl r (by simp [hr]))
      simp only [List.sum_cons, List.length_cons, iht, ha]
      push_cast
      ring
  have hpos : 0 < returns.length := List.length_pos.2 hne
  have hlen : (returns.length : ℚ) ≠ 0 := Nat.cast_ne_zero.2 (by omega)
  rw [meanQ, hsum returns h, mul_div_assoc, div_self hlen, mul_one]

lemma GroupBuffer.add_length (m : Nat) (buf : List (PolicySnapshot W))
    (x : PolicySnapshot W) :
    (GroupBuffer.add m buf x).length = min (buf.length + 1) m := by
  simp only [GroupBuffer.add, List.length_drop, List.length_append,
    List.length_singleton]
  omega

lemma GroupBuffer.addAll_go (m : Nat) (xs : List (PolicySnapshot W)) :
    ∀ buf : List (PolicySnapshot W), buf.length ≤ m →
      (xs.foldl (GroupBuffer.add m) buf).length = min (buf.length + xs.length) m := by
  induction xs with
  | nil => intro buf hb; simp; omega
  | cons x xs ih =>
    intro buf hb
    have h1 := GroupBuffer.add_length m buf x
    have h2 := ih (GroupBuffer.add m buf x) (by omega)
    simp only [List.foldl_cons, List.length_cons]
    omega

lemma GroupBuffer.addAll_length (m : Nat) (xs : List (PolicySnapshot W)) :
    (GroupBuffer.addAll m xs).length = min xs.length m := by
  have := GroupBuffer.addAll_go m xs [] (by simp)
  simpa [GroupBuffer.addAll] using this

lemma drawBatch_ok_of_ne_nil (train it : List D) (h : train ≠ []) :
    ∃ b rest restarted, drawBatch train it 1 = .ok (b, rest, restarted) := by
  unfold drawBatch takeExact
  by_cases hit : 1 ≤ it.length
  · simp [hit]
  · have htr : 1 ≤ train.length := List.length_pos.2 h
    simp [hit, htr]

lemma collectSteps_ok_of_ne_nil (reward : D → ℚ) (train : List D)
    (h : train ≠ []) :
    ∀ (n : Nat) (it : List D), ∃ co,
      collectSteps reward train 1 n it = .ok co ∧
      co.rollouts.length = n ∧ co.groupReturns.length = n := by
  intro n
  induction n with
  | zero => intro it; exact ⟨⟨[], [], it, 0⟩, rfl, rfl, rfl⟩
  | succ n ih =>
    intro it
    obtain ⟨b, rest, restarted, hd⟩ := drawBatch_ok_of_ne_nil train it h
    obtain ⟨co, hco, hr, hg⟩ := ih rest
    refine ⟨⟨b :: co.rollouts, meanQ (b.map reward) :: co.groupReturns,
      co.iterRem, (if restarted then 1 else 0) + co.restarts⟩, ?_, by simp [hr], by simp [hg]⟩
    simp only [collectSteps, hd, hco]

lemma updatePhase_ok (optStep : W → ℚ → W) :
    ∀ (rollouts : List (List D)) (advs : List ℚ) (w : W),
      rollouts.length ≤ advs.length →
      ∃ w2, updatePhase optStep rollouts advs w =
        .ok (w2, (List.replicate rollouts.length
          [Event.zeroGrad, Event.backward, Event.optStep]).flatten) := by
  intro rollouts
  induction rollouts with
  | nil => intro advs w _; exact ⟨w, rfl⟩
  | cons r rs ih =>
    intro advs w hlen
    match advs with
    | [] => simp at hlen
    | a :: advTail =>
      obtain ⟨w2, hw⟩ := ih advTail (optStep w a) (by simpa using hlen)
      exact ⟨w2, by simp [updatePhase, hw, List.replicate_succ]⟩

lemma zipWith_min_zipWith (f g : ℚ → ℚ → ℚ) :
    ∀ l1 l2 : List ℚ,
      List.zipWith min (List.zipWith f l1 l2) (List.zipWith g l1 l2)
        = List.zipWith (fun a b => min (f a b) (g a b)) l1 l2 := by
  intro l1
  induction l1 with
  | nil => intro l2; simp
  | cons a l ih =>
    intro l2
    cases l2 with
    | nil => simp
    | cons b l2 => simp [ih]

lemma collectSteps_length_eq (reward : D → ℚ) (train : List D) (bs : Nat) :
    ∀ (n : Nat) (it : List D) (co : CollectOut D),
      collectSteps reward train bs n it = .ok co →
      co.groupReturns.length = n ∧ co.rollouts.length = n := by
  intro n
  induction n with
  | zero =>
    intro it co h
    simp only [collectSteps] at h
    cases h
    exact ⟨rfl, rfl⟩
  | succ n ih =>
    intro it co h
    simp only [collectSteps] at h
    split at h
    · simp at h
    · split at h
      · simp at h
      · rename_i co2 hc
        cases h
        have := ih _ co2 hc
        exact ⟨by simp [this.1], by simp [this.2]⟩

lemma advantage_getD (returns : List ℚ) (i : Nat) (hi : i < returns.length) :
    (calculate_relative_advantage returns).getD i 0
      = (returns.getD i 0 - meanQ returns)
        / (meanQ (returns.map (fun r => (r - meanQ returns) ^ 2)) + advEps) := by
  have hlen : i < (calculate_relative_advantage returns).length := by
    rw [calculate_relative_advantage_length]
    exact hi
  rw [List.getD_eq_getElem _ _ hlen, List.getD_eq_getElem _ _ hi]
  simp [calculate_relative_advantage]

lemma natFloor_fifth (n : ℕ) : ⌊(1 / 5 : ℚ) * (n : ℚ)⌋₊ = n / 5 := by
  have h : (1 / 5 : ℚ) * (n : ℚ) = (n : ℚ) / ((5 : ℕ) : ℚ) := by
    push_cast
    ring
  rw [h, Nat.floor_div_nat, Nat.floor_natCast]

lemma natFloor_eighth (n : ℕ) : ⌊(1 / 8 : ℚ) * (n : ℚ)⌋₊ = n / 8 := by
  have h : (1 / 8 : ℚ) * (n : ℚ) = (n : ℚ) / ((8 : ℕ) : ℚ) := by
    push_cast
    ring
  rw [h, Nat.floor_div_nat, Nat.floor_natCast]

lemma runEpoch_ok_inv (reward : D → ℚ) (optStep : W → ℚ → W)
    (snapshot : W → W) (train : List D) (sg bs maxSize : Nat)
    (st : TState W D) (o : EpochOut W D)
    (h : runEpoch reward optStep snapshot train sg bs maxSize st = .ok o) :
    o.refUsed = st.ref_sd
    ∧ o.state.ref_sd
        = (if 0 < meanQ o.groupReturns then snapshot o.state.policy
           else st.ref_sd) := by
  simp only [runEpoch] at h
  split at h
  · simp at h
  · split at h
    · simp at h
    · cases h
      exact ⟨rfl, rfl⟩

/-! ### Claim theorems -/

/-- C10: after any sequence of `N` calls to the Group Buffer's `add`
(capacity `m`), the buffer holds `min N m` snapshots, and at no
intermediate point (after any whole-sequence split into a done part and a
pending part) does it hold more than `m` snapshots. -/
theorem buffer_size_invariant (xs : List (PolicySnapshot W)) (m : Nat) :
    (GroupBuffer.addAll m xs).length = min xs.length m
    ∧ ∀ pre suf : List (PolicySnapshot W), xs = pre ++ suf →
        (GroupBuffer.addAll m pre).length ≤ m := by
  refine ⟨GroupBuffer.addAll_length m xs, ?_⟩
  intro pre suf _
  rw [GroupBuffer.addAll_length]
  omega

/-- Witness for C10: three adds into a capacity-2 buffer leave `min 3 2 = 2`
snapshots, and the two-add point was within capacity. -/
theorem buffer_size_invariant_witness :
    (GroupBuffer.addAll 2
        [(⟨0, 0⟩ : PolicySnapshot ℚ), ⟨1, 1⟩, ⟨2, 2⟩]).length = min 3 2
    ∧ (GroupBuffer.addAll 2 [(⟨0, 0⟩ : PolicySnapshot ℚ), ⟨1, 1⟩]).length ≤ 2 :=
  ⟨(buffer_size_invariant [⟨0, 0⟩, ⟨1, 1⟩, ⟨2, 2⟩] 2).1,
   (buffer_size_invariant [⟨0, 0⟩, ⟨1, 1⟩, ⟨2, 2⟩] 2).2 [⟨0, 0⟩, ⟨1, 1⟩] [⟨2, 2⟩] rfl⟩

/-- C9: `calculate_relative_advantage` preserves the length of its input,
and the `i`-th advantage is in bounds whenever `i` indexes a collected
group return; in particular, for a successful COLLECT phase of `n` steps,
every step index `i < n` is in bounds in the advantage list consumed by
the update loop. -/
theorem advantage_length (returns : List ℚ) :
    (calculate_relative_advantage returns).length = returns.length
    ∧ (∀ i : Nat, i < returns.length →
        i < (calculate_relative_advantage returns).length)
    ∧ ∀ (D : Type) (reward : D → ℚ) (train it : List D) (bs n : Nat)
        (co : CollectOut D),
        collectSteps reward train bs n it = .ok co →
        ∀ i : Nat, i < n →
          i < (calculate_relative_advantage co.groupReturns).length := by
  refine ⟨calculate_relative_advantage_length returns, ?_, ?_⟩
  · intro i hi
    rw [calculate_relative_advantage_length]
    exact hi
  · intro D reward train it bs n co hco i hi
    rw [calculate_relative_advantage_length,
      (collectSteps_length_eq reward train bs n it co hco).1]
    exact hi

/-- Witness for C9 at `returns = [1, 2, 3]`, index 2, and a concrete
one-step COLLECT run. -/
theorem advantage_length_witness :
    (calculate_relative_advantage [1, 2, 3]).length = 3
    ∧ 2 < (calculate_relative_advantage [1, 2, 3]).length
    ∧ 0 < (calculate_relative_advantage
        (CollectOut.groupReturns (D := Nat) ⟨[[5]], [meanQ [1]], [], 0⟩)).length :=
  ⟨(advantage_length [1, 2, 3]).1,
   (advantage_length [1, 2, 3]).2.1 2 (by norm_num),
   (advantage_length [1, 2, 3]).2.2 Nat (fun _ => 1) [5] [5] 1 1
      ⟨[[5]], [meanQ [1]], [], 0⟩ (by rfl) 0 (by norm_num)⟩

/-- C7: when all returns in a group are equal the advantage denominator is
strictly positive (no division by zero) and every output advantage equals
zero. -/
theorem advantage_zero_variance (returns : List ℚ) (c : ℚ)
    (h : ∀ r ∈ returns, r = c) :
    0 < meanQ (returns.map (fun r => (r - meanQ returns) ^ 2)) + advEps
    ∧ ∀ a ∈ calculate_relative_advantage returns, a = 0 := by
  refine ⟨advDenom_pos returns, ?_⟩
  intro a ha
  rcases eq_or_ne returns [] with rfl | hne
  · simp [calculate_relative_advantage] at ha
  · simp only [calculate_relative_advantage, List.mem_map] at ha
    obtain ⟨r, hrmem, rfl⟩ := ha
    rw [h r hrmem, meanQ_const returns c hne h, sub_self, zero_div]

/-- Witness for C7 at `group_returns = [1, 1, 1, 1]`: scenario A of the
spec, advantages are all zero. -/
theorem advantage_zero_variance_witness :
    0 < meanQ (([1, 1, 1, 1] : List ℚ).map
        (fun r => (r - meanQ [1, 1, 1, 1]) ^ 2)) + advEps
    ∧ ∀ a ∈ calculate_relative_advantage [1, 1, 1, 1], a = 0 :=
  advantage_zero_variance [1, 1, 1, 1] 1 (by intro r hr; simp at hr; simp [hr])

/-- C8: the group-relative advantage is monotonically non-decreasing in
the return it is derived from, and equal returns receive equal
advantages. -/
theorem advantage_monotone (returns : List ℚ) (i j : Nat)
    (hi : i < returns.length) (hj : j < returns.length) :
    (returns.getD j 0 < returns.getD i 0 →
      (calculate_relative_advantage returns).getD j 0
        ≤ (calculate_relative_advantage returns).getD i 0)
    ∧ (returns.getD i 0 = returns.getD j 0 →
      (calculate_relative_advantage returns).getD i 0
        = (calculate_relative_advantage returns).getD j 0) := by
  rw [advantage_getD returns i hi, advantage_getD returns j hj]
  constructor
  · intro hlt
    apply div_le_div_of_nonneg_right ?_ (advDenom_pos returns).le
    · linarith
  · intro heq
    rw [heq]

/-- Witness for C8 at scenario B's `group_returns = [2, -1, 2, -1]`:
the advantage of a `2` dominates the advantage of a `-1`, and the two
`2`s receive equal advantages. -/
theorem advantage_monotone_witness :
    ((calculate_relative_advantage [2, -1, 2, -1]).getD 1 0
      ≤ (calculate_relative_advantage [2, -1, 2, -1]).getD 0 0)
    ∧ (calculate_relative_advantage [2, -1, 2, -1]).getD 0 0
      = (calculate_relative_advantage [2, -1, 2, -1]).getD 2 0 :=
  ⟨(advantage_monotone [2, -1, 2, -1] 0 1 (by norm_num) (by norm_num)).1
      (by norm_num),
   (advantage_monotone [2, -1, 2, -1] 0 2 (by norm_num) (by norm_num)).2
      (by norm_num)⟩

/-- C4: the per-rollout policy loss is the negated mean of
`min(ratio·A, clamp(ratio, 1-ε, 1+ε)·A)` at `ε = 0.2`, and for a rollout
with advantage `A > 0` and ratio `r > 1 + ε` the surrogate term equals
`(1+ε)·A`, strictly below the unclipped `r·A`. -/
theorem clipped_surrogate_loss (ratio advantage : List ℚ) (r A : ℚ)
    (hA : 0 < A) (hr : 1 + epsilon < r) :
    policy_loss epsilon ratio advantage
      = -meanQ (List.zipWith
          (fun x a => min (x * a) (clampQ x (1 - epsilon) (1 + epsilon) * a))
          ratio advantage)
    ∧ min (r * A) (clampQ r (1 - epsilon) (1 + epsilon) * A) = (1 + epsilon) * A
    ∧ (1 + epsilon) * A < r * A := by
  have hmul : (1 + epsilon) * A < r * A := mul_lt_mul_of_pos_right hr hA
  refine ⟨?_, ?_, hmul⟩
  · unfold policy_loss surr1 surr2
    rw [zipWith_min_zipWith]
  · have h1 : 1 - epsilon ≤ r := by
      have : (0 : ℚ) < epsilon := by norm_num [epsilon]
      linarith
    have hclamp : clampQ r (1 - epsilon) (1 + epsilon) = 1 + epsilon := by
      unfold clampQ
      rw [max_eq_left h1, min_eq_right hr.le]
    rw [hclamp]
    exact min_eq_right hmul.le

/-- Witness for C4 at `ratio = [2]`, `advantage = [1]`, `r = 2`, `A = 1`. -/
theorem clipped_surrogate_loss_witness :
    policy_loss epsilon [2] [1]
      = -meanQ (List.zipWith
          (fun x a => min (x * a) (clampQ x (1 - epsilon) (1 + epsilon) * a))
          [2] [1])
    ∧ min (2 * 1 : ℚ) (clampQ 2 (1 - epsilon) (1 + epsilon) * 1)
        = (1 + epsilon) * 1
    ∧ (1 + epsilon) * 1 < (2 : ℚ) * 1 :=
  clipped_surrogate_loss [2] [1] 2 1 (by norm_num) (by norm_num [epsilon])

/-- C3: because the KL penalty is computed from detached current-policy
logits and no-grad reference logits, the total loss's gradient with
respect to the trainable parameters equals the policy loss's gradient for
every coefficient `beta`, and any optimizer's step, a function of its
state and the received gradient, is identical to the `beta = 0` step. -/
theorem kl_term_never_influences_update (n k : Nat) (b : ℚ) (pl : Dual n)
    (klE : Expr (Fin k ⊕ Fin k)) (logitsD : Fin k → Dual n)
    (refLogits : Fin k → ℚ) :
    (totalLoss b pl klE logitsD refLogits).grad = pl.grad
    ∧ ∀ (S : Type) (o : S → (Fin n → ℚ) → S) (s : S),
        o s ((totalLoss b pl klE logitsD refLogits).grad)
          = o s ((totalLoss 0 pl klE logitsD refLogits).grad) := by
  have hz := eval_grad_zero (klInputs logitsD refLogits)
    (klInputs_grad_zero logitsD refLogits) klE
  have hgrad : ∀ c : ℚ, (totalLoss c pl klE logitsD refLogits).grad = pl.grad := by
    intro c
    funext i
    simp [totalLoss, Dual.add, Dual.mul, Dual.const, hz]
  exact ⟨hgrad b, fun S o s => by rw [hgrad b, hgrad 0]⟩

/-- C1 counterexample: on a 40-record dataset, `load_and_split_dataset`
returns a 7-record train set, a 1-record validation set and an 8-record
test set — not the claimed ≈ 32/7/1 — and record 32 lies in both the
train set and the test set, so the three subsets are not pairwise
disjoint. -/
theorem nested_split_counterexample :
    (load_and_split_dataset (List.range 40)).1.length = 7
    ∧ (load_and_split_dataset (List.range 40)).2.1.length = 1
    ∧ (load_and_split_dataset (List.range 40)).2.2.length = 8
    ∧ 32 ∈ (load_and_split_dataset (List.range 40)).1
    ∧ 32 ∈ (load_and_split_dataset (List.range 40)).2.2 := by
  simp only [load_and_split_dataset, train_test_split, List.length_range,
    List.length_drop, List.length_take, natFloor_fifth, natFloor_eighth]
  norm_num
  decide

/-- C1 amended: the second split of `load_and_split_dataset` is applied
to the *test* (20%) piece of the first split, not the larger 80% piece:
the returned train and validation sets together are exactly the returned
test set (so they are contained in it, not disjoint from it), the test
set holds ⌊n/5⌋ records, validation ⌊⌊n/5⌋/8⌋ and train the rest of the
test set, while the 80% piece is discarded. -/
theorem load_and_split_dataset_resplits_test_part (data : List α) :
    (load_and_split_dataset data).1 ++ (load_and_split_dataset data).2.1
        = (load_and_split_dataset data).2.2
    ∧ (load_and_split_dataset data).2.2.length = data.length / 5
    ∧ (load_and_split_dataset data).2.1.length = data.length / 5 / 8
    ∧ (load_and_split_dataset data).1.length
        = data.length / 5 - data.length / 5 / 8 := by
  refine ⟨?_, ?_, ?_, ?_⟩
  · simp only [load_and_split_dataset, train_test_split]
    exact List.take_append_drop _ _
  all_goals
    simp only [load_and_split_dataset, train_test_split, List.length_take,
      List.length_drop, natFloor_fifth, natFloor_eighth]
    omega

/-- C2: the reference model's weights for an epoch are loaded from the
stored snapshot `ref_sd` before any rollout, and the snapshot is replaced
by the post-update policy's weights exactly when the epoch's mean group
return is strictly positive; hence the reference weights used throughout
the next epoch equal the post-update policy snapshot when
`mean(group_returns) > 0` and the previously stored snapshot otherwise. -/
theorem reference_sync_iff (reward : D → ℚ) (optStep : W → ℚ → W)
    (snapshot : W → W) (train : List D) (sg bs maxSize : Nat)
    (st : TState W D) (o1 o2 : EpochOut W D)
    (h1 : runEpoch reward optStep snapshot train sg bs maxSize st = .ok o1)
    (h2 : runEpoch reward optStep snapshot train sg bs maxSize o1.state = .ok o2) :
    o1.refUsed = st.ref_sd
    ∧ o1.state.ref_sd
        = (if 0 < meanQ o1.groupReturns then snapshot o1.state.policy
           else st.ref_sd)
    ∧ o2.refUsed
        = (if 0 < meanQ o1.groupReturns then snapshot o1.state.policy
           else st.ref_sd) := by
  have i1 := runEpoch_ok_inv reward optStep snapshot train sg bs maxSize st o1 h1
  have i2 := runEpoch_ok_inv reward optStep snapshot train sg bs maxSize o1.state o2 h2
  exact ⟨i1.1, i1.2, by rw [i2.1, i1.2]⟩

/-- Epoch output of the concrete one-step run used to witness C2. -/
def syncW1 : EpochOut ℚ Unit :=
  ⟨⟨0, if 0 < meanQ [meanQ [1]] then (0 : ℚ) else 0, [],
      [⟨0, meanQ [meanQ [1]]⟩]⟩, 0, [[()]], [meanQ [1]],
   [Event.collect, Event.advCall, Event.zeroGrad, Event.backward,
    Event.optStep, Event.bufferAdd], 0⟩

/-- Epoch output of the second concrete epoch used to witness C2. -/
def syncW2 : EpochOut ℚ Unit :=
  ⟨⟨0, if 0 < meanQ [meanQ [1]]
        then (0 : ℚ) else (if 0 < meanQ [meanQ [1]] then (0 : ℚ) else 0), [],
      [⟨0, meanQ [meanQ [1]]⟩, ⟨0, meanQ [meanQ [1]]⟩]⟩,
   (if 0 < meanQ [meanQ [1]] then (0 : ℚ) else 0), [[()]], [meanQ [1]],
   [Event.collect, Event.advCall, Event.zeroGrad, Event.backward,
    Event.optStep, Event.bufferAdd], 1⟩

/-- Witness for C2: two consecutive concrete epochs on a one-record
dataset. -/
theorem reference_sync_iff_witness :
    syncW1.refUsed = (initState id (0 : ℚ) [()]).ref_sd
    ∧ syncW1.state.ref_sd
        = (if 0 < meanQ syncW1.groupReturns then id syncW1.state.policy
           else (initState id (0 : ℚ) [()]).ref_sd)
    ∧ syncW2.refUsed
        = (if 0 < meanQ syncW1.groupReturns then id syncW1.state.policy
           else (initState id (0 : ℚ) [()]).ref_sd) :=
  reference_sync_iff (fun _ => 1) (fun w _ => w) id [()] 1 1 5
    (initState id 0 [()]) syncW1 syncW2 rfl rfl

/-- C5: with the source's `steps_per_group = 4` and `batch_size = 1`, one
iteration of the epoch loop on any non-empty dataset performs exactly 4
collection steps recording exactly 4 rollout tuples, one
`calculate_relative_advantage` call, 4 optimizer steps each preceded by
`zero_grad` and `backward`, and one buffer `add` call. -/
theorem epoch_call_counts (reward : D → ℚ) (optStep : W → ℚ → W)
    (snapshot : W → W) (train : List D) (maxSize : Nat) (st : TState W D)
    (h : train ≠ []) :
    ∃ o : EpochOut W D,
      runEpoch reward optStep snapshot train steps_per_group batch_size
          maxSize st = .ok o
      ∧ o.rollouts.length = 4
      ∧ o.groupReturns.length = 4
      ∧ o.events =
          [Event.collect, Event.collect, Event.collect, Event.collect,
           Event.advCall,
           Event.zeroGrad, Event.backward, Event.optStep,
           Event.zeroGrad, Event.backward, Event.optStep,
           Event.zeroGrad, Event.backward, Event.optStep,
           Event.zeroGrad, Event.backward, Event.optStep,
           Event.bufferAdd]
      ∧ o.events.count Event.advCall = 1
      ∧ o.events.count Event.optStep = 4
      ∧ o.events.count Event.bufferAdd = 1 := by
  obtain ⟨co, hco, hrl, hgl⟩ :=
    collectSteps_ok_of_ne_nil reward train h 4 st.iterRem
  have hadvlen : co.rollouts.length
      ≤ (calculate_relative_advantage co.groupReturns).length := by
    rw [calculate_relative_advantage_length, hgl, hrl]
  obtain ⟨w2, hup⟩ := updatePhase_ok optStep co.rollouts
    (calculate_relative_advantage co.groupReturns) st.policy hadvlen
  have hev : co.groupReturns.map (fun _ => Event.collect)
      = List.replicate 4 Event.collect := by
    rw [List.map_const']
    rw [hgl]
  refine ⟨⟨⟨w2, if 0 < meanQ co.groupReturns then snapshot w2 else st.ref_sd,
      co.iterRem,
      GroupBuffer.add maxSize st.buffer ⟨snapshot w2, meanQ co.groupReturns⟩⟩,
      st.ref_sd, co.rollouts, co.groupReturns,
      co.groupReturns.map (fun _ => Event.collect) ++ [Event.advCall]
        ++ (List.replicate co.rollouts.length
            [Event.zeroGrad, Event.backward, Event.optStep]).flatten
        ++ [Event.bufferAdd],
      co.restarts⟩, ?_, hrl, hgl, ?_, ?_, ?_, ?_⟩
  · simp only [runEpoch, steps_per_group, batch_size, hco, hup]
  · show co.groupReturns.map (fun _ => Event.collect) ++ [Event.advCall]
        ++ (List.replicate co.rollouts.length
            [Event.zeroGrad, Event.backward, Event.optStep]).flatten
        ++ [Event.bufferAdd] = _
    rw [hev, hrl]
    decide
  · show (co.groupReturns.map (fun _ => Event.collect) ++ [Event.advCall]
        ++ (List.replicate co.rollouts.length
            [Event.zeroGrad, Event.backward, Event.optStep]).flatten
        ++ [Event.bufferAdd]).count Event.advCall = 1
    rw [hev, hrl]
    decide
  · show (co.groupReturns.map (fun _ => Event.collect) ++ [Event.advCall]
        ++ (List.replicate co.rollouts.length
            [Event.zeroGrad, Event.backward, Event.optStep]).flatten
        ++ [Event.bufferAdd]).count Event.optStep = 4
    rw [hev, hrl]
    decide
  · show (co.groupReturns.map (fun _ => Event.collect) ++ [Event.advCall]
        ++ (List.replicate co.rollouts.length
            [Event.zeroGrad, Event.backward, Event.optStep]).flatten
        ++ [Event.bufferAdd]).count Event.bufferAdd = 1
    rw [hev, hrl]
    decide

/-- Witness for C5: a concrete epoch on a one-record dataset. -/
theorem epoch_call_counts_witness :
    ∃ o : EpochOut ℚ Unit,
      runEpoch (fun _ => (1 : ℚ)) (fun w _ => w) id [()] steps_per_group
          batch_size 5 (initState id 0 [()]) = .ok o
      ∧ o.rollouts.length = 4
      ∧ o.groupReturns.length = 4
      ∧ o.events =
          [Event.collect, Event.collect, Event.collect, Event.collect,
           Event.advCall,
           Event.zeroGrad, Event.backward, Event.optStep,
           Event.zeroGrad, Event.backward, Event.optStep,
           Event.zeroGrad, Event.backward, Event.optStep,
           Event.zeroGrad, Event.backward, Event.optStep,
           Event.bufferAdd]
      ∧ o.events.count Event.advCall = 1
      ∧ o.events.count Event.optStep = 4
      ∧ o.events.count Event.bufferAdd = 1 :=
  epoch_call_counts (fun _ => (1 : ℚ)) (fun w _ => w) id [()] 5
    (initState id 0 [()]) (by simp)

/-- C6: with the source's `batch_size = 1`, a batch draw never lets
`StopIteration` escape the collection loop for a non-empty dataset — the
iterator is restarted and the draw retried — and a dataset of size 2 with
`steps_per_group = 4` completes all 4 collection steps while restarting
the iterator at least once. -/
theorem iterator_exhaustion_recovered (reward : D → ℚ) (train it : List D)
    (h : train ≠ []) (sg : Nat) :
    (∃ co, collectSteps reward train batch_size sg it = .ok co)
    ∧ ∀ (d1 d2 : D) (reward2 : D → ℚ), ∃ co,
        collectSteps reward2 [d1, d2] batch_size 4 [d1, d2] = .ok co
        ∧ co.groupReturns.length = 4
        ∧ 1 ≤ co.restarts := by
  constructor
  · obtain ⟨co, hco, -, -⟩ := collectSteps_ok_of_ne_nil reward train h sg it
    exact ⟨co, hco⟩
  · intro d1 d2 reward2
    exact ⟨⟨[[d1], [d2], [d1], [d2]],
      [meanQ [reward2 d1], meanQ [reward2 d2], meanQ [reward2 d1],
       meanQ [reward2 d2]], [], 1⟩, rfl, rfl, le_refl 1⟩

/-- Witness for C6: a concrete non-empty dataset and the size-2 scenario
with the two records `0` and `1`. -/
theorem iterator_exhaustion_recovered_witness :
    (∃ co, collectSteps (fun _ : Nat => (1 : ℚ)) [0] batch_size 4 [0] = .ok co)
    ∧ ∀ (d1 d2 : Nat) (reward2 : Nat → ℚ), ∃ co,
        collectSteps reward2 [d1, d2] batch_size 4 [d1, d2] = .ok co
        ∧ co.groupReturns.length = 4
        ∧ 1 ≤ co.restarts :=
  iterator_exhaustion_recovered (fun _ => (1 : ℚ)) [0] [0] (by simp) 4

end GRPO
